import Mathlib

/-!
Shallow embedding of the influxdb3-gorm-driver translation layer
(`dialector/query_builder.go`, `dialector/writer.go`, `dialector/rows.go`,
`dialector/dialector.go`, and the error-translation file), with theorems
settling the specification claims about it.

Modelling conventions:
* Go `string` is Lean `String`; character-level scans work on `List Char`.
* Go `float64` is modelled as `ℚ`; the only float operations the claims
  exercise (identity copies, widening of small integers, and conversion to
  an integer type, which in Go truncates toward zero) are exact on the
  rationals a float can hold.
* Go maps (`map[string]any`, the tag/field maps of the writer) are modelled
  as association lists in insertion order, with Go's assignment-overwrite
  semantics.  Go's map iteration order is unspecified; every property proved
  below is insensitive to that order.
* Fallible Go functions returning `(T, error)` become `Except String T`;
  functions that both write through pointers and may fail mid-way become
  functions returning the updated cells paired with `Option String`, so that
  partial writes are represented faithfully.
-/

namespace InfluxGorm

/-- The double-quote character. -/
def dq : Char := Char.ofNat 34

/-- The single-quote character. -/
def sq : Char := Char.ofNat 39

/-- The newline character (excluded by `.` in Go regexps). -/
def nl : Char := Char.ofNat 10

/-- Double-quote as a one-character string (identifier quoting). -/
def dqS : String := String.mk [dq]

/-- Single-quote as a one-character string (string-literal quoting). -/
def sqS : String := String.mk [sq]

/-- A Go `time.Time` value, restricted to UTC, as a civil tuple.
`time.Time`'s zero value is year 1, January 1, 00:00:00 UTC. -/
structure GoTime where
  year : Int
  month : Int
  day : Int
  hour : Int
  minute : Int
  second : Int
  nanos : Int
deriving DecidableEq, Repr

/-- Go's zero `time.Time` (`time.Time{}.IsZero()` is true exactly here). -/
def goZeroTime : GoTime := ⟨1, 1, 1, 0, 0, 0, 0⟩

/-- Days from civil date to 1970-01-01 (proleptic Gregorian calendar),
the standard civil-from-days arithmetic used to model `Time.UnixNano`. -/
def daysFromCivil (y m d : Int) : Int :=
  let y := if m ≤ 2 then y - 1 else y
  let era := (if 0 ≤ y then y else y - 399) / 400
  let yoe := y - era * 400
  let mp := (m + 9) % 12
  let doy := (153 * mp + 2) / 5 + d - 1
  let doe := yoe * 365 + yoe / 4 - yoe / 100 + doy
  era * 146097 + doe - 719468

/-- Embeds `t.UnixNano()`: nanoseconds since the Unix epoch. -/
def GoTime.unixNano (t : GoTime) : Int :=
  ((daysFromCivil t.year t.month t.day * 86400
    + t.hour * 3600 + t.minute * 60 + t.second) * 1000000000) + t.nanos

/-- Zero-pad an integer to two digits (time formatting helper). -/
def pad2 (n : Int) : String :=
  if n < 10 then "0" ++ toString n else toString n

/-- Zero-pad an integer to four digits (year formatting helper). -/
def pad4 (n : Int) : String :=
  if n < 10 then "000" ++ toString n
  else if n < 100 then "00" ++ toString n
  else if n < 1000 then "0" ++ toString n
  else toString n

/-- Embeds `t.Format(time.RFC3339)` for a UTC time: `YYYY-MM-DDTHH:MM:SSZ`. -/
def rfc3339 (t : GoTime) : String :=
  pad4 t.year ++ "-" ++ pad2 t.month ++ "-" ++ pad2 t.day ++ "T"
    ++ pad2 t.hour ++ ":" ++ pad2 t.minute ++ ":" ++ pad2 t.second ++ "Z"

/-- The dynamically-typed values that flow through the driver:
the scalar kinds produced by the backend iterator and by reflection over
record fields.  `nilV` is Go's `nil` interface value. -/
inductive GoVal where
  | str (s : String)
  | intV (n : Int)
  | int32V (n : Int)
  | int64V (n : Int)
  | uintV (n : Int)
  | float32V (q : ℚ)
  | float64V (q : ℚ)
  | boolV (b : Bool)
  | timeV (t : GoTime)
  | nilV
deriving DecidableEq, Repr

/-- The Go type name of a dynamic value, as `%T` prints it
(used verbatim inside the driver's error messages). -/
def GoVal.typeName : GoVal → String
  | .str _ => "string"
  | .intV _ => "int"
  | .int32V _ => "int32"
  | .int64V _ => "int64"
  | .uintV _ => "uint"
  | .float32V _ => "float32"
  | .float64V _ => "float64"
  | .boolV _ => "bool"
  | .timeV _ => "time.Time"
  | .nilV => "<nil>"

/-- Decimal rendering of a rational, standing in for Go's `%v` rendering of a
float64 (which prints the shortest decimal that round-trips; on the values the
claims exercise the two agree, and no proof below evaluates this on a float
with a fractional part). -/
def floatText (q : ℚ) : String :=
  if q.den = 1 then toString q.num
  else (if q < 0 then "-" else "")
    ++ toString |q|.floor ++ "."
    ++ toString ((|q| - |q|.floor) * 1000000).floor.toNat

/-- Go's `%v` rendering of a UTC `time.Time`
(`YYYY-MM-DD HH:MM:SS +0000 UTC`). -/
def goTimeText (t : GoTime) : String :=
  pad4 t.year ++ "-" ++ pad2 t.month ++ "-" ++ pad2 t.day ++ " "
    ++ pad2 t.hour ++ ":" ++ pad2 t.minute ++ ":" ++ pad2 t.second
    ++ " +0000 UTC"

/-- Embeds `fmt.Sprintf("%v", v)` on a dynamic value. -/
def goSprintV : GoVal → String
  | .str s => s
  | .intV n => toString n
  | .int32V n => toString n
  | .int64V n => toString n
  | .uintV n => toString n
  | .float32V q => floatText q
  | .float64V q => floatText q
  | .boolV b => if b then "true" else "false"
  | .timeV t => goTimeText t
  | .nilV => "<nil>"

/-- Embeds `strings.ReplaceAll(v, "'", "''")` on the character list. -/
def escSingleQuotes : List Char → List Char
  | [] => []
  | c :: r => if c = sq then sq :: sq :: escSingleQuotes r else c :: escSingleQuotes r

/-- Embeds `formatValue` from `dialector/query_builder.go`: strings single-quoted with
internal single quotes doubled, times RFC3339 single-quoted, `nil` as `NULL`,
everything else via `%v`. -/
def formatValue : GoVal → String
  | .str s => sqS ++ String.mk (escSingleQuotes s.data) ++ sqS
  | .timeV t => sqS ++ rfc3339 t ++ sqS
  | .nilV => "NULL"
  | v => goSprintV v

/-- Embeds `Dialector.QuoteString`: wrap an identifier in double quotes. -/
def QuoteString (s : String) : String := dqS ++ s ++ dqS

/-- The GORM clause expressions the translator can receive
(`clause.Eq`, `clause.Neq`, …); `other` stands for any further expression
type, carrying its `%T` name. -/
inductive QExpr where
  | eq (col : String) (v : GoVal)
  | neq (col : String) (v : GoVal)
  | gt (col : String) (v : GoVal)
  | gte (col : String) (v : GoVal)
  | lt (col : String) (v : GoVal)
  | lte (col : String) (v : GoVal)
  | like (col : String) (v : GoVal)
  | inL (col : String) (vs : List GoVal)
  | other (tyName : String)
deriving DecidableEq, Repr

/-- One arm of `translateQuery`'s WHERE switch: the text a supported leaf
contributes, or the `不支持的表达式类型` error for an unsupported one. -/
def whereLeaf : QExpr → Except String String
  | .eq c v => .ok (QuoteString c ++ " = " ++ formatValue v)
  | .neq c v => .ok (QuoteString c ++ " != " ++ formatValue v)
  | .gt c v => .ok (QuoteString c ++ " > " ++ formatValue v)
  | .gte c v => .ok (QuoteString c ++ " >= " ++ formatValue v)
  | .lt c v => .ok (QuoteString c ++ " < " ++ formatValue v)
  | .lte c v => .ok (QuoteString c ++ " <= " ++ formatValue v)
  | .like c v => .ok (QuoteString c ++ " LIKE " ++ formatValue v)
  | .inL c vs =>
      .ok (QuoteString c ++ " IN (" ++ String.intercalate ", " (vs.map formatValue) ++ ")")
  | .other t => .error ("不支持的表达式类型: " ++ t)

/-- The WHERE loop of `translateQuery`: leaves in original order, prefixed by
`" AND "` for every leaf after the first, appended to the accumulator;
an unsupported leaf aborts the whole translation. -/
def whereLoop : List QExpr → Bool → String → Except String String
  | [], _, acc => .ok acc
  | e :: es, first, acc =>
      let acc := if first then acc else acc ++ " AND "
      match whereLeaf e with
      | .error m => .error m
      | .ok s => whereLoop es false (acc ++ s)

/-- The statement data `translateQuery` consumes: table, schema presence and
schema-declared column names, explicit selects, WHERE leaves, ORDER BY
columns with their descending flags, LIMIT and OFFSET. -/
structure QStatement where
  table : String
  hasSchema : Bool
  schemaTable : String
  schemaFieldNames : List String
  selects : List String
  whereExprs : List QExpr
  orderBy : List (String × Bool)
  limit : Option Int
  offset : Int
deriving Repr

/-- The ORDER BY fragment: columns joined by `", "`, descending columns
suffixed `" DESC"`. -/
def orderLoop : List (String × Bool) → Bool → String → String
  | [], _, acc => acc
  | (c, desc) :: cs, first, acc =>
      let acc := if first then acc else acc ++ ", "
      orderLoop cs false (acc ++ QuoteString c ++ (if desc then " DESC" else ""))

/-- Embeds `(*Dialector).translateQuery` from `dialector/query_builder.go`:
a non-empty raw query is passed through unchanged; otherwise the query is
assembled from the statement: select list (schema columns quoted, else `*`),
quoted table, WHERE via `whereLoop`, ORDER BY, LIMIT/OFFSET. -/
def translateQuery (rawQuery : String) (stmt : QStatement) : Except String String :=
  if rawQuery ≠ "" then .ok rawQuery
  else if ¬stmt.hasSchema then .error "缺少schema信息"
  else
    let table := if stmt.table = "" then stmt.schemaTable else stmt.table
    if table = "" then .error "缺少表信息"
    else
      let selectFields :=
        if stmt.selects ≠ [] then stmt.selects
        else (stmt.schemaFieldNames.filter (· ≠ "")).map QuoteString
      let selectFields := if selectFields = [] then ["*"] else selectFields
      let base := "SELECT " ++ String.intercalate ", " selectFields
        ++ " FROM " ++ QuoteString table
      match (if stmt.whereExprs = [] then Except.ok base
             else whereLoop stmt.whereExprs true (base ++ " WHERE ")) with
      | .error m => .error m
      | .ok q =>
          let q := if stmt.orderBy = [] then q
            else orderLoop stmt.orderBy true (q ++ " ORDER BY ")
          let q := match stmt.limit with
            | some n => q ++ " LIMIT " ++ toString n
              ++ (if 0 < stmt.offset then " OFFSET " ++ toString stmt.offset else "")
            | none =>
                if 0 < stmt.offset then q ++ " OFFSET " ++ toString stmt.offset else q
          .ok q

/-- The statement of claim C1's fixed example: table `metrics`, no explicit
selects, no schema columns, predicates `[Eq(region,"US"), Gte(duration,100)]`. -/
def c1Stmt (tbl : String) : QStatement :=
  { table := tbl
    hasSchema := true
    schemaTable := ""
    schemaFieldNames := []
    selects := []
    whereExprs := [QExpr.eq "region" (GoVal.str "US"),
                   QExpr.gte "duration" (GoVal.intV 100)]
    orderBy := []
    limit := none
    offset := 0 }

/-! ### Write encoder (`dialector/writer.go`, `buildLineProtocol`) -/

/-- One schema field as the writer sees it: its backend column name, whether
its tag settings mark it as a tag (`GORM:TAG == "TAG"` or `TYPE == "tag"`),
and the result of `field.ValueOf` — the dynamic value plus the zero flag. -/
structure FieldSpec where
  dbName : String
  isTagSetting : Bool
  fieldValue : GoVal
  isZero : Bool
deriving DecidableEq, Repr

/-- The statement data `buildLineProtocol` consumes. `reflectKindStruct` is
whether `stmt.ReflectValue` (after pointer indirection) is a struct. -/
structure WStatement where
  table : String
  hasSchema : Bool
  reflectKindStruct : Bool
  schemaFields : List FieldSpec
deriving Repr

/-- Go map assignment `m[k] = v`: overwrite the existing entry, else append. -/
def upsert (l : List (String × α)) (k : String) (v : α) : List (String × α) :=
  match l with
  | [] => [(k, v)]
  | (k', v') :: r => if k' = k then (k, v) :: r else (k', v') :: upsert r k v

/-- The classification loop of `buildLineProtocol`: walk the schema fields in
order; skip nil/zero values; tag-marked fields go to the tag map (stringified
with `%v`), reserved time names set the timestamp when the value is a
`time.Time`, reserved measurement/identifier names are dropped, everything
else goes to the field map. -/
def classifyLoop : List FieldSpec → List (String × String) → List (String × GoVal) →
    GoTime → List (String × String) × List (String × GoVal) × GoTime
  | [], tags, fields, ts => (tags, fields, ts)
  | f :: fs, tags, fields, ts =>
      if f.fieldValue = GoVal.nilV ∨ f.isZero then classifyLoop fs tags fields ts
      else if f.isTagSetting then
        classifyLoop fs (upsert tags f.dbName (goSprintV f.fieldValue)) fields ts
      else if f.dbName = "time" ∨ f.dbName = "Time" ∨ f.dbName = "_time" then
        match f.fieldValue with
        | .timeV t => classifyLoop fs tags fields t
        | _ => classifyLoop fs tags fields ts
      else if f.dbName ≠ "_measurement" ∧ f.dbName ≠ "Measurement" ∧ f.dbName ≠ "ID" then
        classifyLoop fs tags (upsert fields f.dbName f.fieldValue) ts
      else classifyLoop fs tags fields ts

/-- The field-role entries the encoder will emit for a statement. -/
def fieldTokens (stmt : WStatement) : List (String × GoVal) :=
  (classifyLoop stmt.schemaFields [] [] goZeroTime).2.1

/-- The tag entries the encoder will emit for a statement. -/
def tagTokens (stmt : WStatement) : List (String × String) :=
  (classifyLoop stmt.schemaFields [] [] goZeroTime).1

/-- The `,k=v` tag fragment of the line protocol. -/
def renderTags : List (String × String) → String
  | [] => ""
  | (k, v) :: r => "," ++ k ++ "=" ++ v ++ renderTags r

/-- One `k=v` field token: strings double-quoted, signed and unsigned integers
suffixed `i`, floats via `%v`, booleans as `true`/`false`, anything else
double-quoted via `%v`. -/
def renderFieldToken (k : String) (v : GoVal) : String :=
  match v with
  | .str s => k ++ "=" ++ dqS ++ s ++ dqS
  | .intV n => k ++ "=" ++ toString n ++ "i"
  | .int32V n => k ++ "=" ++ toString n ++ "i"
  | .int64V n => k ++ "=" ++ toString n ++ "i"
  | .uintV n => k ++ "=" ++ toString n ++ "i"
  | .float32V q => k ++ "=" ++ floatText q
  | .float64V q => k ++ "=" ++ floatText q
  | .boolV b => k ++ "=" ++ (if b then "true" else "false")
  | v => k ++ "=" ++ dqS ++ goSprintV v ++ dqS

/-- The comma-joined field fragment of the line protocol. -/
def renderFields : List (String × GoVal) → String
  | [] => ""
  | [(k, v)] => renderFieldToken k v
  | (k, v) :: r => renderFieldToken k v ++ "," ++ renderFields r

/-- The trailing timestamp fragment: nothing when the accumulated timestamp is
still the zero time, else a space and `UnixNano`. -/
def renderTimestamp (t : GoTime) : String :=
  if t = goZeroTime then "" else " " ++ toString t.unixNano

/-- Embeds `buildLineProtocol` from `dialector/writer.go`: schema must be present and
the record must be a struct; then measurement, tags, a space, the field
tokens, and the optional timestamp are concatenated.  Note the source never
checks that the field map is non-empty. -/
def buildLineProtocol (stmt : WStatement) : Except String String :=
  if ¬stmt.hasSchema then .error "缺少schema信息"
  else if ¬stmt.reflectKindStruct then .error "只支持结构体类型"
  else
    let r := classifyLoop stmt.schemaFields [] [] goZeroTime
    .ok (stmt.table ++ renderTags r.1 ++ " " ++ renderFields r.2.1
      ++ renderTimestamp r.2.2)

/-! ### Row materialization (`InfluxDBRows.Scan` in `dialector/dialector.go`,
`QueryRows.Scan` in `dialector/query_builder.go`) -/

/-- Go's `int64(f)` conversion on a float64: truncation toward zero. -/
def int64OfFloat (q : ℚ) : Int := if 0 ≤ q then ⌊q⌋ else ⌈q⌉

/-- The numeric value of a decimal digit character. -/
def dig (c : Char) : Int := (c.toNat : Int) - 48

/-- Embeds `time.Parse(time.RFC3339, s)` restricted to the UTC `Z` form
`YYYY-MM-DDTHH:MM:SSZ` (the only shape this model's formatter produces;
the library parser additionally accepts numeric offsets and fractional
seconds, and validates calendar ranges — no claim exercises those). -/
def rfc3339Parse (s : String) : Option GoTime :=
  match s.data with
  | [a, b, c, d, s1, e, f, s2, g, h, s3, i, j, s4, k, l, s5, m, n, s6] =>
      if (s1 = '-' ∧ s2 = '-' ∧ s3 = 'T' ∧ s4 = ':' ∧ s5 = ':' ∧ s6 = 'Z')
          ∧ [a, b, c, d, e, f, g, h, i, j, k, l, m, n].all Char.isDigit then
        some ⟨1000 * dig a + 100 * dig b + 10 * dig c + dig d,
              10 * dig e + dig f, 10 * dig g + dig h,
              10 * dig i + dig j, 10 * dig k + dig l, 10 * dig m + dig n, 0⟩
      else none
  | _ => none

/-- A typed scan destination: the cell a caller-supplied pointer points at,
holding its current value.  `dother` is any other pointer type (Go errors on
it), carrying its type name for the message. -/
inductive DestCell where
  | dstr (s : String)
  | dint (n : Int)
  | dint64 (n : Int)
  | dfloat (q : ℚ)
  | dbool (b : Bool)
  | dtime (t : GoTime)
  | dother (tyName : String)
deriving DecidableEq, Repr

/-- One destination write of `InfluxDBRows.Scan` (`dialector/dialector.go`):
the `switch d := dest[i].(type)` with its per-type source switches.  A `nil`
source writes the destination type's zero value; unsupported combinations
return the `无法将 … 转换为 …` errors. -/
def influxConvertCell (cell : DestCell) (val : GoVal) : Except String DestCell :=
  match cell with
  | .dstr _ =>
      match val with
      | .str v => .ok (.dstr v)
      | .nilV => .ok (.dstr "")
      | v => .ok (.dstr (goSprintV v))
  | .dint _ =>
      match val with
      | .intV v => .ok (.dint v)
      | .int64V v => .ok (.dint v)
      | .float64V q => .ok (.dint (int64OfFloat q))
      | .nilV => .ok (.dint 0)
      | v => .error ("无法将 " ++ v.typeName ++ " 转换为 int")
  | .dint64 _ =>
      match val with
      | .intV v => .ok (.dint64 v)
      | .int64V v => .ok (.dint64 v)
      | .float64V q => .ok (.dint64 (int64OfFloat q))
      | .nilV => .ok (.dint64 0)
      | v => .error ("无法将 " ++ v.typeName ++ " 转换为 int64")
  | .dfloat _ =>
      match val with
      | .float64V q => .ok (.dfloat q)
      | .intV v => .ok (.dfloat (v : ℚ))
      | .int64V v => .ok (.dfloat (v : ℚ))
      | .nilV => .ok (.dfloat 0)
      | v => .error ("无法将 " ++ v.typeName ++ " 转换为 float64")
  | .dbool _ =>
      match val with
      | .boolV b => .ok (.dbool b)
      | .nilV => .ok (.dbool false)
      | v => .error ("无法将 " ++ v.typeName ++ " 转换为 bool")
  | .dtime _ =>
      match val with
      | .timeV t => .ok (.dtime t)
      | .str v =>
          match rfc3339Parse v with
          | some t => .ok (.dtime t)
          | none => .error ("无法将字符串 " ++ v ++ " 转换为时间")
      | .nilV => .ok (.dtime goZeroTime)
      | v => .error ("无法将 " ++ v.typeName ++ " 转换为 time.Time")
  | .dother t => .error ("不支持的目标类型: " ++ t)

/-- The write loop of `InfluxDBRows.Scan`: columns in order, each looked up in
the row and written through; a missing column or a conversion failure stops
the loop, keeping the writes already made (Go writes through pointers). -/
def influxScanLoop : List String → List DestCell → List (String × GoVal) →
    List DestCell × Option String
  | [], cells, _ => (cells, none)
  | _ :: _, [], _ => ([], none)
  | c :: cs, cell :: cells, row =>
      match row.lookup c with
      | none => (cell :: cells, some ("列 " ++ c ++ " 不存在"))
      | some v =>
          match influxConvertCell cell v with
          | .error m => (cell :: cells, some m)
          | .ok cell' =>
              let r := influxScanLoop cs cells row
              (cell' :: r.1, r.2)

/-- The iterator-side state of `InfluxDBRows` (`dialector/dialector.go`):
the remaining backend rows, the current row, the discovered column list, and
whether a current row exists.  The backend iterator is modelled as the list
of (non-nil) row maps it will yield. -/
structure IRState where
  stream : List (List (String × GoVal))
  rowData : List (String × GoVal)
  columns : List String
  current : Bool
deriving Repr

/-- Embeds `InfluxDBRows.Next` (`dialector/dialector.go`): pull the next row; when
the column list is still empty, set it from the row's keys (an empty row map
leaves it empty, so discovery retries on the following row). -/
def influxNext (st : IRState) : Bool × IRState :=
  match st.stream with
  | [] => (false, { st with current := false })
  | r :: rest =>
      let cols := if st.columns = [] then r.map Prod.fst else st.columns
      (true, { st with stream := rest, rowData := r, columns := cols, current := true })

/-- Embeds `InfluxDBRows.Scan` (`dialector/dialector.go`): requires a current row,
then requires the destination count to equal the column count, then runs the
write loop.  Returns the destination cells (written or not) and the error. -/
def influxScan (st : IRState) (dest : List DestCell) : List DestCell × Option String :=
  if ¬st.current then (dest, some "没有当前行")
  else if dest.length ≠ st.columns.length then
    (dest, some ("目标数量 (" ++ toString dest.length ++ ") 与列数 ("
      ++ toString st.columns.length ++ ") 不匹配"))
  else influxScanLoop st.columns dest st.rowData

/-- One destination write of `QueryRows.Scan` (`dialector/query_builder.go`):
direct assignment when the dynamic source type is assignable to the
destination's element type, else the conversion switch on the destination
kind (strings take anything via `%v`; int and float kinds take only a
`float64` source; bool only a `bool`; everything else errors). -/
def qrConvertCell (cell : DestCell) (colName : String) (val : GoVal) :
    Except String DestCell :=
  match cell, val with
  | .dstr _, .str v => .ok (.dstr v)
  | .dint _, .intV v => .ok (.dint v)
  | .dint64 _, .int64V v => .ok (.dint64 v)
  | .dfloat _, .float64V q => .ok (.dfloat q)
  | .dbool _, .boolV b => .ok (.dbool b)
  | .dtime _, .timeV t => .ok (.dtime t)
  | cell, val =>
      match cell with
      | .dstr _ => .ok (.dstr (goSprintV val))
      | .dint _ =>
          match val with
          | .float64V q => .ok (.dint (int64OfFloat q))
          | v => .error ("无法将 " ++ v.typeName ++ " 转换为 int 类型, 列 " ++ colName)
      | .dint64 _ =>
          match val with
          | .float64V q => .ok (.dint64 (int64OfFloat q))
          | v => .error ("无法将 " ++ v.typeName ++ " 转换为 int 类型, 列 " ++ colName)
      | .dfloat _ =>
          match val with
          | .float64V q => .ok (.dfloat q)
          | v => .error ("无法将 " ++ v.typeName ++ " 转换为 float 类型, 列 " ++ colName)
      | .dbool _ =>
          match val with
          | .boolV b => .ok (.dbool b)
          | v => .error ("无法将 " ++ v.typeName ++ " 转换为 bool 类型, 列 " ++ colName)
      | .dtime _ =>
          .error ("不支持的类型转换: " ++ val.typeName ++ " 到 time.Time, 列 " ++ colName)
      | .dother t =>
          .error ("不支持的类型转换: " ++ val.typeName ++ " 到 " ++ t ++ ", 列 " ++ colName)

/-- The write loop of `QueryRows.Scan`: a `nil` source value is skipped
(`continue`), leaving that destination at its prior value; otherwise convert
and write; a missing column or a conversion failure stops the loop, keeping
the writes already made. -/
def qrScanLoop : List String → List DestCell → List (String × GoVal) →
    List DestCell × Option String
  | [], cells, _ => (cells, none)
  | _ :: _, [], _ => ([], none)
  | c :: cs, cell :: cells, row =>
      match row.lookup c with
      | none => (cell :: cells, some ("列名 " ++ c ++ " 不存在于结果中"))
      | some v =>
          if v = GoVal.nilV then
            let r := qrScanLoop cs cells row
            (cell :: r.1, r.2)
          else
            match qrConvertCell cell c v with
            | .error m => (cell :: cells, some m)
            | .ok cell' =>
                let r := qrScanLoop cs cells row
                (cell' :: r.1, r.2)

/-- The state of `QueryRows` (`dialector/query_builder.go`): remaining backend
rows, current row, discovered columns, current-row flag, and the stored
iteration error. -/
structure QRState where
  stream : List (List (String × GoVal))
  rowData : List (String × GoVal)
  columns : List String
  current : Bool
  errMsg : Option String
deriving Repr

/-- Embeds `QueryRows.Next` (`dialector/query_builder.go`): pull the next row; the
column list is set from the row's keys only when it is still empty **and**
the new row is non-empty (`len(r.columns) == 0 && len(r.rowData) > 0`). -/
def qrNext (st : QRState) : Bool × QRState :=
  match st.stream with
  | [] => (false, { st with current := false })
  | r :: rest =>
      let cols := if st.columns = [] ∧ r ≠ [] then r.map Prod.fst else st.columns
      (true, { st with stream := rest, rowData := r, columns := cols, current := true })

/-- Embeds `QueryRows.Scan` (`dialector/query_builder.go`): a stored error or absent
current row fails first; an empty column list is `没有列信息`; then the arity
check `len(dest) != len(r.columns)`; then the write loop. -/
def qrScan (st : QRState) (dest : List DestCell) : List DestCell × Option String :=
  match st.errMsg with
  | some e => (dest, some e)
  | none =>
      if ¬st.current then (dest, some "没有当前行数据，请先调用Next()")
      else if st.columns = [] then (dest, some "没有列信息")
      else if dest.length ≠ st.columns.length then
        (dest, some ("列数(" ++ toString st.columns.length ++ ")与目标变量数("
          ++ toString dest.length ++ ")不匹配"))
      else qrScanLoop st.columns dest st.rowData

/-! ### The `database/sql` driver boundary (`driverRows.Next`, `dialector/rows.go`) -/

/-- Embeds `driver.Value`: the dynamic values the `database/sql` layer receives. -/
inductive DVal where
  | vnil
  | vstr (s : String)
  | vint64 (n : Int)
  | vfloat (q : ℚ)
  | vbool (b : Bool)
  | vtime (t : GoTime)
deriving DecidableEq, Repr

/-- Lowercase a character list (`strings.ToLower`). -/
def lowerChars (cs : List Char) : List Char := cs.map Char.toLower

/-- Embeds `strings.HasPrefix` on character lists. -/
def lpre : List Char → List Char → Bool
  | [], _ => true
  | _ :: _, [] => false
  | a :: as, b :: bs => a = b && lpre as bs

/-- Embeds `strings.Contains` on character lists. -/
def lcontains : List Char → List Char → Bool
  | [], pat => lpre pat []
  | s@(_ :: t), pat => lpre pat s || lcontains t pat

/-- The per-value conversion of `driverRows.Next` (`dialector/rows.go`):
int kinds widen to `int64`, `float32` to `float64`; a `float64` under a
column whose lower-cased name contains `count` (or named `action_type` /
`duration`) is truncated to `int64`; anything unrecognized is stringified. -/
def driverConv (col : String) (v : GoVal) : DVal :=
  match v with
  | .str s => .vstr s
  | .intV n => .vint64 n
  | .int32V n => .vint64 n
  | .int64V n => .vint64 n
  | .float32V q => .vfloat q
  | .float64V q =>
      if lcontains (lowerChars col.data) "count(".data
          ∨ lcontains (lowerChars col.data) "count".data
          ∨ col = "action_type" ∨ col = "duration" then
        .vint64 (int64OfFloat q)
      else .vfloat q
  | .boolV b => .vbool b
  | .timeV t => .vtime t
  | .nilV => .vnil
  | v => .vstr (goSprintV v)

/-- The copy loop of `driverRows.Next`: the first
`min(len(cols), len(dest))` destinations receive the converted column
values (a column missing from the row map yields `nil`), and every
destination past the column count is set to `nil`. -/
def copyCols : List String → List DVal → List (String × GoVal) → List DVal
  | _, [], _ => []
  | [], _ :: ds, row => DVal.vnil :: copyCols [] ds row
  | c :: cs, _ :: ds, row =>
      (match row.lookup c with
       | none => DVal.vnil
       | some v => driverConv c v) :: copyCols cs ds row

/-- Embeds `driverRows.Next` (`dialector/rows.go`): advance the underlying rows; on
exhaustion report `io.EOF` (or the stored iterator error); on success, if the
column list is empty or the destination slice is empty, return with the
destinations untouched, else run the copy loop.  No column/destination count
comparison is ever made. -/
def driverRowsNext (st : IRState) (dest : List DVal) :
    Except String (List DVal × IRState) :=
  match influxNext st with
  | (false, _) => .error "io.EOF"
  | (true, st') =>
      if st'.columns = [] then .ok (dest, st')
      else if dest = [] then .ok (dest, st')
      else .ok (copyCols st'.columns dest st'.rowData, st')

/-! ### Error translation (`TranslateError`) -/

/-- A Go error value at the translator's boundary: either GORM's
`ErrRecordNotFound` sentinel or an opaque backend error with a message. -/
inductive GoError where
  | gormRecordNotFound
  | backend (msg : String)
deriving DecidableEq, Repr

/-- Case-insensitive substring test, modelling a `(?i)` literal pattern. -/
def containsCI (s : String) (pat : List Char) : Bool :=
  lcontains (lowerChars s.data) pat

/-- Scan for the close of a `"(.+)" not found` pattern: at least one
non-newline character, then `" not found` (the `.` of a Go regexp does not
match a newline). -/
def closeNF : List Char → Bool
  | [] => false
  | c :: rest =>
      if c = nl then false
      else lpre (dq :: " not found".data) rest || closeNF rest

/-- Scan for `<openMark>(.+)" not found` anywhere in the text. -/
def scanQuotedNF (openMark : List Char) : List Char → Bool
  | [] => false
  | s@(_ :: t) =>
      (lpre openMark s && closeNF (s.drop openMark.length))
        || scanQuotedNF openMark t

/-- The open of `rxMeasurementNotFound`: `measurement "` (lower-case form). -/
def openMNF : List Char := "measurement ".data ++ [dq]

/-- The open of `rxDatabaseNotFound`: `database "` (lower-case form). -/
def openDNF : List Char := "database ".data ++ [dq]

/-- Embeds `rxMeasurementNotFound.MatchString`, case-insensitively. -/
def matchMNF (s : String) : Bool := scanQuotedNF openMNF (lowerChars s.data)

/-- Embeds `rxDatabaseNotFound.MatchString`, case-insensitively. -/
def matchDNF (s : String) : Bool := scanQuotedNF openDNF (lowerChars s.data)

/-- Embeds `rxServerUnavailable.MatchString`: `connection refused` or
`server unavailable`, case-insensitively. -/
def matchUnavail (s : String) : Bool :=
  containsCI s "connection refused".data || containsCI s "server unavailable".data

/-- Embeds `(Dialector).TranslateError`: `ErrRecordNotFound` passes through; then
the fixed, ordered pattern list, first match winning; unmatched messages are
returned unchanged. -/
def TranslateError : GoError → GoError
  | .gormRecordNotFound => .gormRecordNotFound
  | .backend msg =>
      if matchMNF msg || matchDNF msg then .gormRecordNotFound
      else if containsCI msg "duplicate data".data then
        .backend "ERROR: duplicate data detected (23000)"
      else if containsCI msg "field type conflict".data then
        .backend "ERROR: field type conflict (22001)"
      else if containsCI msg "insufficient permissions".data then
        .backend "ERROR: insufficient permissions (42000)"
      else if containsCI msg "syntax error".data then
        .backend "ERROR: syntax error (42000)"
      else if matchUnavail msg then
        .backend "ERROR: server unavailable (08S01)"
      else .backend msg

/-! ### Delete queries (`buildDeleteQuery`, `formatValueForQuery` in
`dialector/writer.go`) -/

/-- Embeds `formatValueForQuery`: strings single-quoted **without** doubling internal
quotes, times RFC3339 single-quoted, everything else via `%v`. -/
def formatValueForQuery : GoVal → String
  | .str s => sqS ++ s ++ sqS
  | .timeV t => sqS ++ rfc3339 t ++ sqS
  | v => goSprintV v

/-- One arm of `buildDeleteQuery`'s WHERE switch: `%s op %v` with the column
printed raw (no quoting) — only the six comparison operators are supported,
`Like`/`IN` and anything else error with `不支持的删除条件`. -/
def deleteLeaf : QExpr → Except String String
  | .eq c v => .ok (c ++ " = " ++ formatValueForQuery v)
  | .neq c v => .ok (c ++ " != " ++ formatValueForQuery v)
  | .gt c v => .ok (c ++ " > " ++ formatValueForQuery v)
  | .gte c v => .ok (c ++ " >= " ++ formatValueForQuery v)
  | .lt c v => .ok (c ++ " < " ++ formatValueForQuery v)
  | .lte c v => .ok (c ++ " <= " ++ formatValueForQuery v)
  | .like _ _ => .error "不支持的删除条件: clause.Like"
  | .inL _ _ => .error "不支持的删除条件: clause.IN"
  | .other t => .error ("不支持的删除条件: " ++ t)

/-- The WHERE loop of `buildDeleteQuery`: leaves joined by `" AND "`. -/
def deleteLoop : List QExpr → Bool → String → Except String String
  | [], _, acc => .ok acc
  | e :: es, first, acc =>
      let acc := if first then acc else acc ++ " AND "
      match deleteLeaf e with
      | .error m => .error m
      | .ok s => deleteLoop es false (acc ++ s)

/-- The statement data `buildDeleteQuery` consumes. -/
structure DStatement where
  table : String
  hasSchema : Bool
  whereExprs : List QExpr
deriving Repr

/-- Embeds `buildDeleteQuery` from `dialector/writer.go`: requires schema and table,
then emits `DELETE FROM <table>` — the table printed raw via `%s`, **not**
double-quoted — followed by the WHERE conjunction when predicates exist. -/
def buildDeleteQuery (stmt : DStatement) : Except String String :=
  if ¬stmt.hasSchema ∨ stmt.table = "" then .error "缺少表或schema信息"
  else
    let base := "DELETE FROM " ++ stmt.table
    if stmt.whereExprs = [] then .ok base
    else deleteLoop stmt.whereExprs true (base ++ " WHERE ")

/-- Whether a predicate leaf is one of the six comparisons the delete
translator supports. -/
def deleteSupported : QExpr → Bool
  | .eq _ _ | .neq _ _ | .gt _ _ | .gte _ _ | .lt _ _ | .lte _ _ => true
  | _ => false

/-- The space-surrounded comparison symbol of a supported leaf (empty for
unsupported ones; never consulted there). -/
def deleteOpSym : QExpr → String
  | .eq _ _ => " = "
  | .neq _ _ => " != "
  | .gt _ _ => " > "
  | .gte _ _ => " >= "
  | .lt _ _ => " < "
  | .lte _ _ => " <= "
  | _ => ""

/-- The column of a predicate leaf. -/
def leafCol : QExpr → String
  | .eq c _ | .neq c _ | .gt c _ | .gte c _ | .lt c _ | .lte c _
  | .like c _ | .inL c _ => c
  | .other _ => ""

/-- The scalar value of a comparison leaf. -/
def leafVal : QExpr → GoVal
  | .eq _ v | .neq _ v | .gt _ v | .gte _ v | .lt _ v | .lte _ v
  | .like _ v => v
  | _ => GoVal.nilV

/-- Concatenate a list of strings. -/
def joinParts : List String → String
  | [] => ""
  | x :: r => x ++ joinParts r

/-- Join fragments with `" AND "`. -/
def joinAnd : List String → String
  | [] => ""
  | [a] => a
  | a :: r => a ++ " AND " ++ joinAnd r

/-- The amended rendering of one supported comparison leaf: unquoted column,
the comparison operator, the value via `formatValueForQuery`. -/
def deleteLeafSpec (e : QExpr) : String :=
  leafCol e ++ deleteOpSym e ++ formatValueForQuery (leafVal e)

/-- Modelled from the amended wording of claim C8 (the rendering the delete
translator actually produces): `DELETE FROM table [WHERE …]` with the table
identifier unquoted, columns unquoted, leaves joined by `AND`, and string
literals single-quoted with internal single quotes left as they are. -/
def deleteQueryAmendedSpec (stmt : DStatement) : String :=
  "DELETE FROM " ++ stmt.table
    ++ (if stmt.whereExprs = [] then ""
        else " WHERE " ++ joinAnd (stmt.whereExprs.map deleteLeafSpec))

/-! ### Small observers used by the theorems -/

/-- Whether an `Except` result is a success. -/
def exceptOk {α : Type} : Except String α → Bool
  | .ok _ => true
  | .error _ => false

/-- The zero value of a destination cell's type (what Go's `var x T` holds). -/
def zeroCell : DestCell → DestCell
  | .dstr _ => .dstr ""
  | .dint _ => .dint 0
  | .dint64 _ => .dint64 0
  | .dfloat _ => .dfloat 0
  | .dbool _ => .dbool false
  | .dtime _ => .dtime goZeroTime
  | .dother t => .dother t

/-- Whether a destination cell is of a pointer type `InfluxDBRows.Scan`
supports. -/
def supportedCell : DestCell → Bool
  | .dother _ => false
  | _ => true

/-- Whether a dynamic value is of a kind the integer destinations of
`InfluxDBRows.Scan` accept (`int`, `int64` or `float64`). -/
def acceptsIntSource : GoVal → Bool
  | .intV _ | .int64V _ | .float64V _ => true
  | _ => false

/-- Claim C2/C3's example records. -/
def c2Record : WStatement :=
  ⟨"m", true, true, [⟨"duration", false, GoVal.intV 0, true⟩]⟩

def c3Record : WStatement :=
  ⟨"m", true, true, [⟨"duration", false, GoVal.intV 0, true⟩,
                     ⟨"temp", false, GoVal.intV 25, false⟩]⟩

/-- Claim C6's example stream: the first pulled row has no keys, the second
introduces column `a`. -/
def c6Start : QRState :=
  ⟨[[], [("a", GoVal.intV 1)]], [], [], false, none⟩

/-- Claim C8's example delete statement: a string value with an internal
single quote. -/
def c8Record : DStatement :=
  ⟨"weather", true, [QExpr.eq "region" (GoVal.str "O'Brien")]⟩

/-- The lower-cased text of the claim-C7 example `measurement "foo" not
found`, as a character list. -/
def mnfFooLit : List Char :=
  "measurement ".data ++ dq :: "foo".data ++ dq :: " not found".data

/-! ## Helper lemmas -/

theorem mem_keys_upsert {α : Type} {l : List (String × α)} {k a : String} {v : α}
    (h : a ∈ (upsert l k v).map Prod.fst) : a = k ∨ a ∈ l.map Prod.fst := by
  induction l with
  | nil => simpa [upsert] using h
  | cons p r ih =>
      obtain ⟨k', v'⟩ := p
      by_cases hk : k' = k
      · rw [upsert, if_pos hk] at h
        rcases List.mem_cons.mp h with h | h
        · exact Or.inl h
        · exact Or.inr (List.mem_cons_of_mem _ h)
      · rw [upsert, if_neg hk] at h
        rcases List.mem_cons.mp h with h | h
        · exact Or.inr (List.mem_cons.mpr (Or.inl h))
        · rcases ih h with h | h
          · exact Or.inl h
          · exact Or.inr (List.mem_cons_of_mem _ h)

theorem classify_fields_keys (k : String) :
    ∀ (fs : List FieldSpec) (tags : List (String × String))
      (fields : List (String × GoVal)) (ts : GoTime),
      (∀ f ∈ fs, f.dbName = k → (f.isZero = true ∨ f.fieldValue = GoVal.nilV)) →
      k ∉ fields.map Prod.fst →
      k ∉ (classifyLoop fs tags fields ts).2.1.map Prod.fst := by
  intro fs
  induction fs with
  | nil => intro tags fields ts _ hmem; simpa [classifyLoop] using hmem
  | cons f fs ih =>
      intro tags fields ts hall hmem
      have htail : ∀ g ∈ fs, g.dbName = k → (g.isZero = true ∨ g.fieldValue = GoVal.nilV) :=
        fun g hg => hall g (List.mem_cons_of_mem _ hg)
      rw [classifyLoop]
      by_cases hskip : f.fieldValue = GoVal.nilV ∨ f.isZero
      · rw [if_pos hskip]
        exact ih _ _ _ htail hmem
      · rw [if_neg hskip]
        have hne : f.dbName ≠ k := by
          intro hEq
          rcases hall f (List.mem_cons_self f fs) hEq with h | h
          · exact hskip (Or.inr h)
          · exact hskip (Or.inl h)
        by_cases htag : f.isTagSetting
        · rw [if_pos htag]
          exact ih _ _ _ htail hmem
        · rw [if_neg htag]
          by_cases htime : f.dbName = "time" ∨ f.dbName = "Time" ∨ f.dbName = "_time"
          · rw [if_pos htime]
            cases f.fieldValue <;> exact ih _ _ _ htail hmem
          · rw [if_neg htime]
            by_cases hres : f.dbName ≠ "_measurement" ∧ f.dbName ≠ "Measurement"
                ∧ f.dbName ≠ "ID"
            · rw [if_pos hres]
              apply ih _ _ _ htail
              intro hmem'
              rcases mem_keys_upsert hmem' with h | h
              · exact hne h.symm
              · exact hmem h
            · rw [if_neg hres]
              exact ih _ _ _ htail hmem

/-! ## Claim theorems -/

/-- Claim C1 (confirmed): for the fixed predicate list
`[Eq(region,"US"), Gte(duration,100)]` the translator emits exactly
`WHERE "region" = 'US' AND "duration" >= 100` — leaves joined with `AND` in
original order, the columns double-quoted, the string value single-quoted.
`translateQuery` is a pure function of the statement (the embedding has no
mutable state, mirroring the source, which builds the text in a local
`strings.Builder`), so every invocation on this input produces this exact
string. -/
theorem c1_where_translation :
    translateQuery "" (c1Stmt "metrics")
      = Except.ok
          "SELECT * FROM \"metrics\" WHERE \"region\" = 'US' AND \"duration\" >= 100" := by
  rfl

/-- Claim C2 counterexample: a structured record whose only field is
zero-valued classifies to an empty field set, yet `buildLineProtocol`
succeeds — it returns the (malformed) line `m ` instead of any
`EncodingError`, refuting the claim that such a record is never encoded. -/
theorem c2_counterexample :
    fieldTokens c2Record = [] ∧ buildLineProtocol c2Record = Except.ok "m " :=
  ⟨rfl, rfl⟩

/-- Claim C2 as amended: the write encoder fails with an `EncodingError`
exactly when the schema is missing or the record is not a structured value;
for a structured record with schema it always succeeds, and in particular a
record with zero non-zero Field-role members is still encoded, as the
measurement, the tags, and a trailing space with an empty field list. -/
theorem c2_amended :
    (∀ stmt : WStatement, stmt.hasSchema = true → stmt.reflectKindStruct = false →
        buildLineProtocol stmt = Except.error "只支持结构体类型")
    ∧ (∀ stmt : WStatement, stmt.hasSchema = true → stmt.reflectKindStruct = true →
        exceptOk (buildLineProtocol stmt) = true)
    ∧ (∀ stmt : WStatement, stmt.hasSchema = true → stmt.reflectKindStruct = true →
        fieldTokens stmt = [] →
        buildLineProtocol stmt = Except.ok (stmt.table ++ renderTags (tagTokens stmt)
          ++ " " ++ renderTimestamp (classifyLoop stmt.schemaFields [] [] goZeroTime).2.2)) := by
  refine ⟨?_, ?_, ?_⟩
  · intro stmt h1 h2
    simp [buildLineProtocol, h1, h2]
  · intro stmt h1 h2
    simp [buildLineProtocol, h1, h2, exceptOk]
  · intro stmt h1 h2 h3
    rw [fieldTokens] at h3
    simp [buildLineProtocol, h1, h2, tagTokens, h3, renderFields]

/-- Claim C2 amended, witnessed at a concrete record: a non-struct record
errors, and the zero-field struct record of the counterexample encodes. -/
theorem c2_amended_witness :
    buildLineProtocol ⟨"m", true, false, []⟩ = Except.error "只支持结构体类型"
    ∧ exceptOk (buildLineProtocol c2Record) = true :=
  ⟨c2_amended.1 ⟨"m", true, false, []⟩ rfl rfl, c2_amended.2.1 c2Record rfl rfl⟩

/-- Claim C3 (confirmed): a field all of whose descriptors carry a zero (or
nil) value contributes no `key=value` token to the encoded line: its column
name is absent from the emitted field-token list.  Concretely, the record
with `duration=0` and `temp=25` encodes to `m temp=25i`, which contains no
`duration=` token. -/
theorem c3_zero_value_omitted :
    (∀ (stmt : WStatement) (k : String),
        (∀ f ∈ stmt.schemaFields, f.dbName = k →
          (f.isZero = true ∨ f.fieldValue = GoVal.nilV)) →
        k ∉ (fieldTokens stmt).map Prod.fst)
    ∧ buildLineProtocol c3Record = Except.ok "m temp=25i"
    ∧ lcontains "m temp=25i".data "duration=".data = false := by
  refine ⟨?_, rfl, by decide⟩
  intro stmt k h
  exact classify_fields_keys k _ _ _ _ h (by simp)

/-- Claim C3, witnessed: `duration` is zero-valued throughout `c3Record`, so
its key is absent from the emitted field tokens. -/
theorem c3_witness :
    "duration" ∉ (fieldTokens c3Record).map Prod.fst :=
  c3_zero_value_omitted.1 c3Record "duration" (by decide)

/-- Claim C4 (confirmed): Scan checks arity before writing anything.  For
`InfluxDBRows.Scan`, with a current row, a destination/column count mismatch
returns exactly the arity error and the destinations unchanged.  For
`QueryRows.Scan`, with a current row and no stored error, a mismatch always
fails with the destinations unchanged, and (whenever the column list is
non-empty, the only case in which the arity comparison is reached) the error
is the arity error. -/
theorem c4_arity_mismatch :
    (∀ (st : IRState) (dest : List DestCell), st.current = true →
        dest.length ≠ st.columns.length →
        influxScan st dest = (dest, some ("目标数量 (" ++ toString dest.length
          ++ ") 与列数 (" ++ toString st.columns.length ++ ") 不匹配")))
    ∧ (∀ (st : QRState) (dest : List DestCell), st.errMsg = none →
        st.current = true → dest.length ≠ st.columns.length →
        (qrScan st dest).1 = dest ∧ (qrScan st dest).2.isSome = true
          ∧ (st.columns ≠ [] → qrScan st dest
              = (dest, some ("列数(" ++ toString st.columns.length ++ ")与目标变量数("
                ++ toString dest.length ++ ")不匹配")))) := by
  constructor
  · intro st dest hcur hlen
    simp [influxScan, hcur, hlen]
  · intro st dest herr hcur hlen
    by_cases hcols : st.columns = []
    · refine ⟨?_, ?_, fun h => absurd hcols h⟩ <;> simp [qrScan, herr, hcur, hcols]
    · refine ⟨?_, ?_, fun _ => ?_⟩ <;> simp [qrScan, herr, hcur, hcols, hlen]

/-- Claim C4, witnessed: one discovered column against two destinations is
rejected with the arity error on both scan paths, touching no destination. -/
theorem c4_witness :
    influxScan ⟨[], [("a", GoVal.intV 1)], ["a"], true⟩ [DestCell.dint 0, DestCell.dstr ""]
      = ([DestCell.dint 0, DestCell.dstr ""], some "目标数量 (2) 与列数 (1) 不匹配")
    ∧ (qrScan ⟨[], [("a", GoVal.intV 1)], ["a"], true, none⟩
        [DestCell.dint 0, DestCell.dstr ""]).1 = [DestCell.dint 0, DestCell.dstr ""] := by
  constructor
  · exact c4_arity_mismatch.1 ⟨[], [("a", GoVal.intV 1)], ["a"], true⟩
      [DestCell.dint 0, DestCell.dstr ""] rfl (by decide)
  · exact (c4_arity_mismatch.2 ⟨[], [("a", GoVal.intV 1)], ["a"], true, none⟩
      [DestCell.dint 0, DestCell.dstr ""] rfl rfl (by decide)).1

/-- Claim C5 counterexample: a `nil` source value is neither of the integer
kinds nor `float64`, yet coercing it into an Int destination does **not**
produce a `CoercionError` — it succeeds and writes `0`. -/
theorem c5_counterexample :
    influxConvertCell (DestCell.dint 5) GoVal.nilV = Except.ok (DestCell.dint 0)
    ∧ acceptsIntSource GoVal.nilV = false :=
  ⟨rfl, rfl⟩

/-- Claim C5 as amended: a `float64` source coerced into an Int/Int64
destination (on either scan path) yields the truncation toward zero of the
source — the floor for non-negative sources and the ceiling for negative
ones, so `3.9` yields `3`, not `4` — and a **non-nil** source value that is
neither an accepted integer kind nor `float64` yields a `CoercionError`. -/
theorem c5_truncation :
    (∀ (p : Int) (q : ℚ),
        influxConvertCell (DestCell.dint p) (GoVal.float64V q)
          = Except.ok (DestCell.dint (int64OfFloat q))
        ∧ influxConvertCell (DestCell.dint64 p) (GoVal.float64V q)
          = Except.ok (DestCell.dint64 (int64OfFloat q)))
    ∧ (∀ (p : Int) (q : ℚ) (c : String),
        qrConvertCell (DestCell.dint p) c (GoVal.float64V q)
          = Except.ok (DestCell.dint (int64OfFloat q)))
    ∧ (∀ q : ℚ, (0 ≤ q → int64OfFloat q = ⌊q⌋) ∧ (q < 0 → int64OfFloat q = ⌈q⌉))
    ∧ int64OfFloat ((39 : ℚ) / 10) = 3
    ∧ (∀ (p : Int) (v : GoVal), v ≠ GoVal.nilV → acceptsIntSource v = false →
        exceptOk (influxConvertCell (DestCell.dint p) v) = false
        ∧ exceptOk (influxConvertCell (DestCell.dint64 p) v) = false) := by
  refine ⟨fun p q => ⟨rfl, rfl⟩, fun p q c => rfl, ?_,
    by rw [int64OfFloat, if_pos (by norm_num)]; norm_num [Int.floor_eq_iff], ?_⟩
  · intro q
    constructor
    · intro h
      rw [int64OfFloat, if_pos h]
    · intro h
      rw [int64OfFloat, if_neg (not_le.mpr h)]
  · intro p v h1 h2
    cases v <;> simp [acceptsIntSource] at h2 <;>
      simp [influxConvertCell, exceptOk] at h1 ⊢

/-- Claim C5 amended, witnessed: `3.9` truncates to `3` on both Int paths,
and a string source into an Int destination is a `CoercionError`. -/
theorem c5_witness :
    influxConvertCell (DestCell.dint 0) (GoVal.float64V ((39 : ℚ) / 10))
      = Except.ok (DestCell.dint 3)
    ∧ exceptOk (influxConvertCell (DestCell.dint 0) (GoVal.str "x")) = false := by
  constructor
  · rw [(c5_truncation.1 0 ((39 : ℚ) / 10)).1, c5_truncation.2.2.2.1]
  · exact (c5_truncation.2.2.2.2 0 (GoVal.str "x") (by decide) rfl).1

/-- Claim C6 counterexample: when the first successfully pulled row has no
keys, the column set is **not** frozen from it — after the second pull the
reported column list changes from `[]` to `["a"]`, and column `a`, absent
from the first row, is reported; this refutes the claim that the column list
is unchanged after the first successful pull. -/
theorem c6_counterexample :
    (qrNext c6Start).1 = true
    ∧ ((qrNext c6Start).2).columns = []
    ∧ (qrNext ((qrNext c6Start).2)).1 = true
    ∧ ((qrNext ((qrNext c6Start).2)).2).columns = ["a"] :=
  ⟨rfl, rfl, rfl, rfl⟩

/-- Claim C6 as amended: the column set is frozen from the first pulled row
whose key set is non-empty: once the column list is non-empty no later pull
changes it, and while it is empty a pull adopts the keys of the pulled row
(`QueryRows.Next` only when that row is non-empty; `InfluxDBRows.Next`
re-derives the — still empty — key list from an empty row). -/
theorem c6_first_nonempty_row_freeze :
    (∀ st : QRState, st.columns ≠ [] → ((qrNext st).2).columns = st.columns)
    ∧ (∀ (st : QRState) (r : List (String × GoVal)) rest, st.stream = r :: rest →
        st.columns = [] → r ≠ [] → ((qrNext st).2).columns = r.map Prod.fst)
    ∧ (∀ st : IRState, st.columns ≠ [] → ((influxNext st).2).columns = st.columns)
    ∧ (∀ (st : IRState) (r : List (String × GoVal)) rest, st.stream = r :: rest →
        st.columns = [] → ((influxNext st).2).columns = r.map Prod.fst) := by
  refine ⟨?_, ?_, ?_, ?_⟩
  · intro st h
    rcases hs : st.stream with _ | ⟨r, rest⟩ <;> simp [qrNext, hs, h]
  · intro st r rest hs h1 h2
    simp [qrNext, hs, h1, h2]
  · intro st h
    rcases hs : st.stream with _ | ⟨r, rest⟩ <;> simp [influxNext, hs, h]
  · intro st r rest hs h1
    simp [influxNext, hs, h1]

/-- Claim C6 amended, witnessed: a non-empty column list survives a pull, and
an empty one adopts the keys of a pulled non-empty row. -/
theorem c6_witness :
    ((qrNext ⟨[[("b", GoVal.intV 2)]], [], ["a"], true, none⟩).2).columns = ["a"]
    ∧ ((qrNext ⟨[[("b", GoVal.intV 2)]], [], [], true, none⟩).2).columns = ["b"] :=
  ⟨c6_first_nonempty_row_freeze.1 ⟨[[("b", GoVal.intV 2)]], [], ["a"], true, none⟩
      (by decide),
    c6_first_nonempty_row_freeze.2.1 ⟨[[("b", GoVal.intV 2)]], [], [], true, none⟩
      [("b", GoVal.intV 2)] [] rfl rfl (by decide)⟩

theorem lpre_append (l r : List Char) : lpre l (l ++ r) = true := by
  induction l with
  | nil => rfl
  | cons a as ih => simp [lpre, ih]

theorem eq_append_drop_of_lpre :
    ∀ (l s : List Char), lpre l s = true → s = l ++ s.drop l.length := by
  intro l
  induction l with
  | nil => intro s _; rfl
  | cons a as ih =>
      intro s h
      cases s with
      | nil => exact absurd h (by simp [lpre])
      | cons b bs =>
          rw [lpre, Bool.and_eq_true, decide_eq_true_eq] at h
          obtain ⟨rfl, h2⟩ := h
          simpa using congrArg (a :: ·) (ih bs h2)

theorem closeNF_step {c : Char} {rest : List Char} (hc : ¬c = nl)
    (h : lpre (dq :: " not found".data) rest = true ∨ closeNF rest = true) :
    closeNF (c :: rest) = true := by
  rw [closeNF, if_neg hc]
  rcases h with h | h <;> simp [h]

theorem closeNF_foo (t : List Char) :
    closeNF ('f' :: 'o' :: 'o' :: dq :: " not found".data ++ t) = true := by
  apply closeNF_step (by decide)
  refine Or.inr ?_
  apply closeNF_step (by decide)
  refine Or.inr ?_
  apply closeNF_step (by decide)
  exact Or.inl (lpre_append (dq :: " not found".data) t)

theorem lpre_mnf {s : List Char} (h : lpre mnfFooLit s = true) :
    lpre openMNF s = true ∧ closeNF (s.drop openMNF.length) = true := by
  have hsplit : mnfFooLit = openMNF ++ ('f' :: 'o' :: 'o' :: dq :: " not found".data) := by
    decide
  have hs := eq_append_drop_of_lpre _ _ h
  rw [hsplit, List.append_assoc] at hs
  constructor
  · rw [hs]
    exact lpre_append _ _
  · rw [hs, List.drop_left]
    exact closeNF_foo _

theorem scan_of_contains :
    ∀ s : List Char, lcontains s mnfFooLit = true → scanQuotedNF openMNF s = true := by
  intro s
  induction s with
  | nil =>
      intro h
      rw [lcontains] at h
      exact absurd h (by decide)
  | cons c t ih =>
      intro h
      rw [lcontains] at h
      rw [scanQuotedNF]
      rcases Bool.or_eq_true_iff.mp h with h1 | h1
      · obtain ⟨h2, h3⟩ := lpre_mnf h1
        simp [h2, h3]
      · simp [ih h1]

/-- Claim C7 (confirmed): the error translator maps any backend text
containing `measurement "foo" not found` (case-insensitively) to the
NotFound domain error (`gorm.ErrRecordNotFound`); text containing
`field type conflict` — when no earlier pattern of the fixed, ordered list
(measurement/database not-found, duplicate data) also matches — to the
SchemaConflict error; and any text matching none of the fixed patterns is
returned unchanged. -/
theorem c7_error_translation :
    (∀ msg : String, lcontains (lowerChars msg.data) mnfFooLit = true →
        TranslateError (GoError.backend msg) = GoError.gormRecordNotFound)
    ∧ (∀ msg : String, containsCI msg "field type conflict".data = true →
        matchMNF msg = false → matchDNF msg = false →
        containsCI msg "duplicate data".data = false →
        TranslateError (GoError.backend msg)
          = GoError.backend "ERROR: field type conflict (22001)")
    ∧ (∀ msg : String, matchMNF msg = false → matchDNF msg = false →
        containsCI msg "duplicate data".data = false →
        containsCI msg "field type conflict".data = false →
        containsCI msg "insufficient permissions".data = false →
        containsCI msg "syntax error".data = false → matchUnavail msg = false →
        TranslateError (GoError.backend msg) = GoError.backend msg) := by
  refine ⟨?_, ?_, ?_⟩
  · intro msg h
    have hscan : matchMNF msg = true := scan_of_contains _ h
    simp [TranslateError, hscan]
  · intro msg h h1 h2 h3
    simp [TranslateError, h, h1, h2, h3]
  · intro msg h1 h2 h3 h4 h5 h6 h7
    simp [TranslateError, h1, h2, h3, h4, h5, h6, h7]

/-- Claim C7, witnessed on the three example texts: the measurement-not-found
message (in mixed case) maps to NotFound, the exact text
`field type conflict` maps to the SchemaConflict message, and an unmatched
text passes through as the identical backend error. -/
theorem c7_witness :
    TranslateError (GoError.backend "Measurement \"foo\" not found")
      = GoError.gormRecordNotFound
    ∧ TranslateError (GoError.backend "field type conflict")
      = GoError.backend "ERROR: field type conflict (22001)"
    ∧ TranslateError (GoError.backend "some harmless text")
      = GoError.backend "some harmless text" :=
  ⟨c7_error_translation.1 "Measurement \"foo\" not found" (by decide),
    c7_error_translation.2.1 "field type conflict" (by decide) (by decide) (by decide)
      (by decide),
    c7_error_translation.2.2 "some harmless text" (by decide) (by decide) (by decide)
      (by decide) (by decide) (by decide) (by decide)⟩

theorem deleteLeaf_ok {e : QExpr} (h : deleteSupported e = true) :
    deleteLeaf e = Except.ok (deleteLeafSpec e) := by
  cases e <;> simp [deleteSupported] at h <;>
    simp [deleteLeaf, deleteLeafSpec, leafCol, deleteOpSym, leafVal]

theorem joinAnd_cons (x : String) (xs : List String) :
    joinAnd (x :: xs) = x ++ joinParts (xs.map (fun y => " AND " ++ y)) := by
  induction xs generalizing x with
  | nil => simp [joinAnd, joinParts]
  | cons y ys ih => simp [joinAnd, ih, joinParts, String.append_assoc]

theorem deleteLoop_false :
    ∀ (es : List QExpr), (∀ e ∈ es, deleteSupported e = true) →
      ∀ acc, deleteLoop es false acc
        = Except.ok (acc ++ joinParts (es.map (fun e => " AND " ++ deleteLeafSpec e))) := by
  intro es
  induction es with
  | nil => intro _ acc; simp [deleteLoop, joinParts]
  | cons e es ih =>
      intro h acc
      rw [deleteLoop, deleteLeaf_ok (h e (List.mem_cons_self e es))]
      show deleteLoop es false (acc ++ " AND " ++ deleteLeafSpec e) = _
      rw [ih (fun g hg => h g (List.mem_cons_of_mem _ hg))]
      simp [joinParts, String.append_assoc]

/-- Claim C8 counterexample: for the delete statement on table `weather` with
predicate `Eq(region, "O'Brien")`, the generated text is
`DELETE FROM weather WHERE region = 'O'Brien'`: the table identifier is
**not** double-quoted (the text does not start with `DELETE FROM "weather"`)
and the internal single quote of the string literal is **not** doubled
(`O''Brien` does not occur; the undoubled `O'Brien` does). -/
theorem c8_counterexample :
    buildDeleteQuery c8Record
      = Except.ok "DELETE FROM weather WHERE region = 'O'Brien'"
    ∧ lpre "DELETE FROM \"weather\"".data
        "DELETE FROM weather WHERE region = 'O'Brien'".data = false
    ∧ lcontains "DELETE FROM weather WHERE region = 'O'Brien'".data
        "O''Brien".data = false
    ∧ lcontains "DELETE FROM weather WHERE region = 'O'Brien'".data
        "O'Brien".data = true :=
  ⟨rfl, by decide, by decide, by decide⟩

/-- Claim C8 as amended: for every delete statement with schema, a non-empty
table and only supported comparison predicates, the generated query text is
`DELETE FROM table [WHERE …]` with the table identifier **unquoted**, columns
unquoted, leaves joined by `AND`, and string literals single-quoted with
internal single quotes left undoubled (`deleteQueryAmendedSpec`). -/
theorem c8_delete_format :
    ∀ stmt : DStatement, stmt.hasSchema = true → stmt.table ≠ "" →
      (∀ e ∈ stmt.whereExprs, deleteSupported e = true) →
      buildDeleteQuery stmt = Except.ok (deleteQueryAmendedSpec stmt) := by
  intro stmt h1 h2 h3
  rw [buildDeleteQuery, if_neg (by simp [h1, h2])]
  rcases hw : stmt.whereExprs with _ | ⟨e, es⟩
  · simp [deleteQueryAmendedSpec, hw]
  · rw [if_neg (by simp : ¬(e :: es = []))]
    rw [hw] at h3
    rw [deleteLoop, deleteLeaf_ok (h3 e (List.mem_cons_self e es))]
    show deleteLoop es false ("DELETE FROM " ++ stmt.table ++ " WHERE "
      ++ deleteLeafSpec e) = _
    rw [deleteLoop_false es (fun g hg => h3 g (List.mem_cons_of_mem _ hg))]
    simp [deleteQueryAmendedSpec, hw, joinAnd_cons, String.append_assoc, Function.comp]
    rfl

/-- Claim C8 amended, witnessed at the counterexample's statement. -/
theorem c8_witness :
    buildDeleteQuery c8Record = Except.ok (deleteQueryAmendedSpec c8Record) :=
  c8_delete_format c8Record rfl (by decide) (by decide)

/-- Claim C9 counterexample: on the `QueryRows.Scan` path a `nil` source
value is *skipped*, not zeroed — scanning the row `{a: nil}` into an Int
destination currently holding `7` succeeds without error but leaves the
destination at `7`, which is not the zero value of its type, refuting the
claim that the destination holds the zero value after the call. -/
theorem c9_counterexample :
    qrScan ⟨[], [("a", GoVal.nilV)], ["a"], true, none⟩ [DestCell.dint 7]
      = ([DestCell.dint 7], none)
    ∧ DestCell.dint 7 ≠ zeroCell (DestCell.dint 7) :=
  ⟨rfl, by decide⟩

/-- Claim C9 as amended: a `nil` source value never fails.  On the
`InfluxDBRows.Scan` path it actively writes the zero value of the
destination's type (for every supported destination type); on the
`QueryRows.Scan` path the column is skipped, so the destination keeps its
prior value — which is the zero value only when it already was — and the
loop's error outcome is exactly that of the remaining columns. -/
theorem c9_nil_source :
    (∀ cell : DestCell, supportedCell cell = true →
        influxConvertCell cell GoVal.nilV = Except.ok (zeroCell cell))
    ∧ (∀ (c : String) (cs : List String) (cell : DestCell) (cells : List DestCell)
        (row : List (String × GoVal)), row.lookup c = some GoVal.nilV →
        qrScanLoop (c :: cs) (cell :: cells) row
          = (cell :: (qrScanLoop cs cells row).1, (qrScanLoop cs cells row).2)) := by
  constructor
  · intro cell h
    cases cell <;> simp [supportedCell] at h <;> rfl
  · intro c cs cell cells row h
    simp [qrScanLoop, h]

/-- Claim C9 amended, witnessed: a nil source zeroes an Int destination on
the `InfluxDBRows.Scan` path, and is skipped (prior value `7` kept, no
error) on the `QueryRows.Scan` path. -/
theorem c9_witness :
    influxConvertCell (DestCell.dint 5) GoVal.nilV = Except.ok (zeroCell (DestCell.dint 5))
    ∧ qrScanLoop ["a"] [DestCell.dint 7] [("a", GoVal.nilV)]
        = (DestCell.dint 7 :: (qrScanLoop [] [] [("a", GoVal.nilV)]).1,
           (qrScanLoop [] [] [("a", GoVal.nilV)]).2) :=
  ⟨c9_nil_source.1 (DestCell.dint 5) rfl,
    c9_nil_source.2 "a" [] (DestCell.dint 7) [] [("a", GoVal.nilV)] rfl⟩

theorem copyCols_eq :
    ∀ (dest : List DVal) (cols : List String) (row : List (String × GoVal)),
      copyCols cols dest row
        = ((cols.take dest.length).map (fun c =>
              match row.lookup c with
              | none => DVal.vnil
              | some v => driverConv c v))
          ++ List.replicate (dest.length - cols.length) DVal.vnil := by
  intro dest
  induction dest with
  | nil => intro cols row; simp [copyCols]
  | cons d ds ih =>
      intro cols row
      cases cols with
      | nil => simp [copyCols, ih, List.replicate_succ]
      | cons c cs => simp [copyCols, ih, Nat.succ_sub_succ]

/-- Claim C10 counterexample: the no-arity-check claim also asserted that
every destination beyond the column count is set to `nil`; but when the
discovered column set is empty (a pulled row with no keys), `driverRows.Next`
returns early and leaves the destinations untouched — here one destination
(more than the zero columns) keeps its stale non-nil value. -/
theorem c10_counterexample :
    driverRowsNext ⟨[[]], [], [], false⟩ [DVal.vstr "stale"]
      = Except.ok ([DVal.vstr "stale"], ⟨[], [], [], true⟩)
    ∧ DVal.vstr "stale" ≠ DVal.vnil :=
  ⟨rfl, by decide⟩

/-- Claim C10 as amended: whenever a row remains, `driverRows.Next` succeeds
for **every** destination count — no column/destination arity rule is
enforced; with a non-empty column set and non-empty destinations the
destinations become the conversions of the first `min(len cols, len dest)`
columns followed by `nil` for every extra destination (`copyCols_eq` gives
the take/pad characterization); with an empty column set (or no
destinations) the destinations are returned untouched. -/
theorem c10_driver_no_arity :
    (∀ (st : IRState) (r : List (String × GoVal)) rest (dest : List DVal),
        st.stream = r :: rest →
        driverRowsNext st dest
          = Except.ok ((if ((influxNext st).2).columns = [] ∨ dest = [] then dest
              else copyCols ((influxNext st).2).columns dest ((influxNext st).2).rowData),
            (influxNext st).2))
    ∧ (∀ (cols : List String) (dest : List DVal) (row : List (String × GoVal)),
        copyCols cols dest row
          = ((cols.take dest.length).map (fun c =>
                match row.lookup c with
                | none => DVal.vnil
                | some v => driverConv c v))
            ++ List.replicate (dest.length - cols.length) DVal.vnil) := by
  constructor
  · intro st r rest dest hs
    rw [driverRowsNext]
    have hnext : influxNext st = (true, (influxNext st).2) := by
      rw [influxNext, hs]
    rw [hnext]
    by_cases hcols : ((influxNext st).2).columns = []
    · simp [hcols]
    · by_cases hdest : dest = [] <;> simp [hcols, hdest]
  · exact fun cols dest row => copyCols_eq dest cols row

/-- Claim C10 amended, witnessed: three destinations against one discovered
column succeed — the first destination receives the converted column, the
two extras become `nil`. -/
theorem c10_witness :
    driverRowsNext ⟨[[("a", GoVal.intV 1)]], [], [], false⟩
        [DVal.vnil, DVal.vstr "x", DVal.vstr "y"]
      = Except.ok ([DVal.vint64 1, DVal.vnil, DVal.vnil],
          ⟨[], [("a", GoVal.intV 1)], ["a"], true⟩) := by
  have h := c10_driver_no_arity.1 ⟨[[("a", GoVal.intV 1)]], [], [], false⟩
    [("a", GoVal.intV 1)] [] [DVal.vnil, DVal.vstr "x", DVal.vstr "y"] rfl
  rw [h]
  rfl

end InfluxGorm
